import Mathlib

/-!
Shallow embedding of the pantheon cluster coordinator (Go) for checking its
natural-language specification.

The embedding covers:
* the CRC32-IEEE hash used by the consistent hash ring,
* the hash ring (`pkg/hashring`): `NewHashRing`, `AddNode`, `RemoveNode`,
  `GetNode`, `getNextAvailableNode`, `UpdateNodeStatus`,
* the Redis-backed storage adapter (`storage.go`): member records are Redis
  hashes with string-valued fields; the adapter operations `AddNode`,
  `GetNode`, `GetNodes`, `UpdateNodeState`, `UpdateNodeHeartbeat`,
  `IncrementHeartbeats`, `IncrementHeartbeatFailures`, `ResetHeartbeatFailures`,
* the coordinator pieces the claims are about: `handleHeartbeatEvent`
  (`heartbeat.go`), `Distribute` (`distribution.go`), `Join` (`pantheon.go`).

Go maps are modelled as association lists (first binding wins, insertion
replaces), Go slices as lists, machine integers as `Nat` (all arithmetic here
is far below any overflow; CRC32 arithmetic is reduced mod 2^32 explicitly by
the bit loop).  Errors are modelled with `Except`; the Redis client itself is
pure and never fails, so error paths that only trigger on connection failures
are unreachable in the model and noted where they occur.
-/

namespace Pantheon

/-! ## CRC32-IEEE (`hash/crc32`, `crc32.ChecksumIEEE`)

The reflected CRC32 with polynomial 0xEDB88320, as computed by Go's
`crc32.ChecksumIEEE` on the ASCII bytes of the input string. -/

/-- One round of the reflected CRC32 bit loop. -/
def crc32Round (crc : Nat) : Nat :=
  if crc % 2 = 1 then (crc / 2) ^^^ 0xEDB88320 else crc / 2

/-- Fold one byte into the CRC accumulator (8 bit rounds). -/
def crc32Update (crc b : Nat) : Nat :=
  Nat.iterate crc32Round 8 (crc ^^^ (b % 256))

/-- Model of `crc32.ChecksumIEEE([]byte(s))` for an ASCII string `s`. -/
def crc32 (s : String) : Nat :=
  (s.data.foldl (fun c ch => crc32Update c ch.toNat) 0xFFFFFFFF) ^^^ 0xFFFFFFFF

/-! ## Association lists standing in for Go maps -/

/-- Lookup in an association list (Go map read `m[k]`, `ok` as `Option`). -/
def alGet {α β : Type} [DecidableEq α] : List (α × β) → α → Option β
  | [], _ => none
  | (k, v) :: rest, key => if key = k then some v else alGet rest key

/-- Insert/replace in an association list (Go map write `m[k] = v`). -/
def alSet {α β : Type} [DecidableEq α] : List (α × β) → α → β → List (α × β)
  | [], key, val => [(key, val)]
  | (k, v) :: rest, key, val =>
    if key = k then (k, val) :: rest else (k, v) :: alSet rest key val

/-- Delete from an association list (Go `delete(m, k)`). -/
def alDel {α β : Type} [DecidableEq α] : List (α × β) → α → List (α × β)
  | [], _ => []
  | (k, v) :: rest, key => if key = k then alDel rest key else (k, v) :: alDel rest key


/-! ## Decimal strings and other executable string helpers

Kernel-transparent replacements for the library string functions the Go code
uses (`fmt.Sprintf("%d", n)`, `fmt.Sscanf(s, "%d")`, `strings.Join`,
`strings.TrimPrefix`, glob prefix match); all strings involved are ASCII. -/

/-- Decimal digit character. -/
def decDigitChar (d : Nat) : Char :=
  match d with
  | 0 => '0' | 1 => '1' | 2 => '2' | 3 => '3' | 4 => '4'
  | 5 => '5' | 6 => '6' | 7 => '7' | 8 => '8' | _ => '9'

/-- Accumulate the decimal digits of `n` (the fuel is always sufficient). -/
def decCharsAux : Nat → Nat → List Char → List Char
  | 0, _, acc => acc
  | fuel + 1, n, acc =>
    let acc := decDigitChar (n % 10) :: acc
    if n / 10 = 0 then acc else decCharsAux fuel (n / 10) acc

/-- Model of `fmt.Sprintf("%d", n)` for a natural number. -/
def natToDec (n : Nat) : String :=
  ⟨decCharsAux (n + 1) n []⟩

/-- Numeric value of a decimal digit character, if it is one. -/
def decDigitVal (c : Char) : Option Nat :=
  if 48 ≤ c.toNat ∧ c.toNat ≤ 57 then some (c.toNat - 48) else none

/-- Parse a non-empty all-digit character list. -/
def parseDecAux (acc : Nat) : List Char → Option Nat
  | [] => some acc
  | c :: rest =>
    match decDigitVal c with
    | some d => parseDecAux (acc * 10 + d) rest
    | none => none

/-- Model of scanning a decimal number out of a string (`fmt.Sscanf(s, "%d")`
on the canonical decimal values this program stores). -/
def parseDec (s : String) : Option Nat :=
  match s.data with
  | [] => none
  | l => parseDecAux 0 l

/-- Model of `strings.Join(parts, ":")`. -/
def joinColon : List String → String
  | [] => ""
  | [p] => p
  | p :: rest => p ++ ":" ++ joinColon rest

/-- Prefix test on the underlying character lists (ASCII). -/
def strHasPfx (s pfx : String) : Bool :=
  pfx.data.isPrefixOf s.data

/-- Model of `strings.TrimPrefix(s, pfx)`. -/
def trimPfx (s pfx : String) : String :=
  if strHasPfx s pfx then ⟨s.data.drop pfx.data.length⟩ else s

instance {ε α : Type} [DecidableEq ε] [DecidableEq α] : DecidableEq (Except ε α) := by
  intro x y
  cases x with
  | ok a =>
    cases y with
    | ok b =>
      by_cases h : a = b
      · exact isTrue (by rw [h])
      · exact isFalse (by intro he; cases he; exact h rfl)
    | error b => exact isFalse (by intro he; cases he)
  | error a =>
    cases y with
    | ok b => exact isFalse (by intro he; cases he)
    | error b =>
      by_cases h : a = b
      · exact isTrue (by rw [h])
      · exact isFalse (by intro he; cases he; exact h rfl)

end Pantheon

namespace Hashring

open Pantheon (crc32 alGet alSet alDel natToDec)

/-! ## `pkg/hashring` -/

/-- Source `NodeStatus` (`node.go`): `"active" | "inactive" | "draining"`. -/
inductive NodeStatus
  | active
  | inactive
  | draining
  deriving DecidableEq, Repr

/-- Source `Node` (`node.go`).  `LastHeartbeat` is carried but unused by the ring
operations the claims are about. -/
structure Node where
  ID : String
  Address : String
  Status : NodeStatus
  LastHeartbeat : Int := 0
  deriving DecidableEq, Repr

/-- Source `Node.IsAvailable` (`node.go`): true iff the status is `active`. -/
def Node.IsAvailable (n : Node) : Bool :=
  n.Status = NodeStatus.active

/-- Source `Node.SetStatus` (`node.go`). -/
def Node.SetStatus (n : Node) (status : NodeStatus) : Node :=
  { n with Status := status }

/-- Ring errors (`errors.go` of `pkg/hashring`, plus the inline errors of
`hashring.go`). -/
inductive RingErr
  | noNodes            -- ErrNoNodes
  | nodeExists         -- ErrNodeExists
  | nodeNotFound       -- ErrNodeNotFound
  | nilNode            -- errors.New("cannot add nil node")
  | emptyID            -- errors.New("node ID cannot be empty")
  | internalMissing (nodeID : String)  -- "virtual node points to non-existent node"
  | noActiveNodes      -- errors.New("no active nodes available")
  deriving DecidableEq, Repr

/-- Source `HashRing` (`hashring.go`).  The Go maps `nodes` and `virtualNodes` are
association lists; `sortedHashes` is the slice of virtual-node hashes. -/
structure HashRing where
  nodes : List (String × Node)
  virtualNodes : List (Nat × String)
  sortedHashes : List Nat
  replicaCount : Nat
  deriving DecidableEq, Repr

/-- Source `NewHashRing(replicaCount)` (`hashring.go`): non-positive replica counts
are silently replaced by the default of 10. -/
def NewHashRing (replicaCount : Int) : HashRing :=
  let rc : Nat := if replicaCount ≤ 0 then 10 else replicaCount.toNat
  { nodes := [], virtualNodes := [], sortedHashes := [], replicaCount := rc }

/-- The virtual-node key `fmt.Sprintf("%s:%d", id, i)`. -/
def virtualNodeKey (id : String) (i : Nat) : String :=
  id ++ ":" ++ natToDec i

/-- Ascending insertion into a sorted list; `sortHashes` below reproduces the
result of Go's `sort.Slice(h.sortedHashes, less-than)` on a `[]uint32`. -/
def insertSorted (x : Nat) : List Nat → List Nat
  | [] => [x]
  | y :: rest => if x ≤ y then x :: y :: rest else y :: insertSorted x rest

/-- Sort a hash slice ascending (the effect of the `sort.Slice` call in
`AddNode`; for a list of numbers any correct sort yields this list). -/
def sortHashes (l : List Nat) : List Nat :=
  l.foldr insertSorted []

/-- Source `HashRing.AddNode` (`hashring.go`).  The nil-pointer argument is modelled
as `none`. -/
def HashRing.AddNode (h : HashRing) (n : Option Node) : Except RingErr HashRing :=
  match n with
  | none => .error .nilNode
  | some n =>
    if n.ID = "" then .error .emptyID
    else if (alGet h.nodes n.ID).isSome then .error .nodeExists
    else
      let nodes := alSet h.nodes n.ID n
      -- the loop over `i < replicaCount`: insert each virtual hash into the
      -- `virtualNodes` map (overwriting on collision, as a Go map write does)
      -- and append it to `sortedHashes`
      let step := fun (acc : List (Nat × String) × List Nat) (i : Nat) =>
        let hash := crc32 (virtualNodeKey n.ID i)
        (alSet acc.1 hash n.ID, acc.2 ++ [hash])
      let acc := (List.range h.replicaCount).foldl step (h.virtualNodes, h.sortedHashes)
      .ok { h with
              nodes := nodes
              virtualNodes := acc.1
              sortedHashes := sortHashes acc.2 }

/-- Source `HashRing.RemoveNode` (`hashring.go`), translated exactly as written: the
loop that copies `h.sortedHashes` minus the current hash into
`newSortedHashes` is nested INSIDE the per-replica loop, so each replica
iteration appends another copy of the original slice. -/
def HashRing.RemoveNode (h : HashRing) (nodeID : String) : Except RingErr HashRing :=
  match alGet h.nodes nodeID with
  | none => .error .nodeNotFound
  | some node =>
    let nodes := alDel h.nodes nodeID
    let step := fun (acc : List (Nat × String) × List Nat) (i : Nat) =>
      let hash := crc32 (virtualNodeKey node.ID i)
      let vns := alDel acc.1 hash
      -- inner loop: `for _, h := range h.sortedHashes { if h != hash { append } }`
      let newSorted := acc.2 ++ h.sortedHashes.filter (fun x => x ≠ hash)
      (vns, newSorted)
    let acc := (List.range h.replicaCount).foldl step (h.virtualNodes, [])
    .ok { h with nodes := nodes, virtualNodes := acc.1, sortedHashes := acc.2 }

/-- Go's `sort.Search` binary-search loop (`sort` package): returns the
smallest index in `[i, j)` at which `f` holds when `f` is monotone, by the
exact bisection Go performs (which is what runs even on unsorted data). -/
def sortSearchAux (f : Nat → Bool) : Nat → Nat → Nat → Nat
  | 0, i, _ => i
  | fuel + 1, i, j =>
    if i < j then
      let m := (i + j) / 2
      if f m then sortSearchAux f fuel i m else sortSearchAux f fuel (m + 1) j
    else i

/-- Go `sort.Search(n, f)`.  Each bisection step strictly shrinks `j - i`, so
the initial fuel `n + 1` is never exhausted and the fuelled recursion computes
exactly Go's loop. -/
def sortSearch (n : Nat) (f : Nat → Bool) : Nat :=
  sortSearchAux f (n + 1) 0 n

/-- The node ID a position of `sortedHashes` points at, as Go computes it:
a missing map entry yields the zero value `""`. -/
def HashRing.vnodeIDAt (h : HashRing) (idx : Nat) : String :=
  (alGet h.virtualNodes (h.sortedHashes.getD idx 0)).getD ""

/-- The loop body of `getNextAvailableNode` (`hashring.go`), iterating over
the remaining loop counters `i` (the full loop runs `i = 0 .. len-1`). -/
def getNextAvailableLoop (h : HashRing) (startIdx : Nat) : List Nat → Except RingErr Node
  | [] => .error .noActiveNodes
  | i :: rest =>
    let n := h.sortedHashes.length
    let nodeID := h.vnodeIDAt ((startIdx + i) % n)
    -- skip virtual nodes pointing to the same physical node we already checked
    if i ≠ 0 ∧ nodeID = h.vnodeIDAt ((startIdx + i - 1) % n) then
      getNextAvailableLoop h startIdx rest
    else
      match alGet h.nodes nodeID with
      | some node =>
        if node.IsAvailable then .ok node else getNextAvailableLoop h startIdx rest
      | none => getNextAvailableLoop h startIdx rest

/-- Source `HashRing.getNextAvailableNode` (`hashring.go`). -/
def HashRing.getNextAvailableNode (h : HashRing) (startIdx : Nat) : Except RingErr Node :=
  getNextAvailableLoop h startIdx (List.range h.sortedHashes.length)

/-- Source `HashRing.GetNode` (`hashring.go`). -/
def HashRing.GetNode (h : HashRing) (key : String) : Except RingErr Node :=
  if h.nodes.isEmpty then .error .noNodes
  else
    let hash := crc32 key
    let idx := sortSearch h.sortedHashes.length (fun i => h.sortedHashes.getD i 0 ≥ hash)
    let idx := if idx ≥ h.sortedHashes.length then 0 else idx
    let nodeID := h.vnodeIDAt idx
    match alGet h.nodes nodeID with
    | none => .error (.internalMissing nodeID)
    | some node =>
      if node.IsAvailable then .ok node
      else h.getNextAvailableNode idx

/-- Source `HashRing.GetNodeCount` (`hashring.go`). -/
def HashRing.GetNodeCount (h : HashRing) : Nat :=
  h.nodes.length

/-- Source `HashRing.UpdateNodeStatus` (`hashring.go`). -/
def HashRing.UpdateNodeStatus (h : HashRing) (nodeID : String) (status : NodeStatus) :
    Except RingErr HashRing :=
  match alGet h.nodes nodeID with
  | none => .error .nodeNotFound
  | some node => .ok { h with nodes := alSet h.nodes nodeID (node.SetStatus status) }

end Hashring

namespace Pantheon

/-! ## The Redis contents and the storage adapter (`storage.go`)

Redis keys used by the adapter fall into three disjoint kinds —
`nodes:{id}` (hashes), `keymap:{key}` (strings), `nodekeys:{id}` (sets) —
so the store is modelled with one map per kind.  All values are strings,
exactly as stored on the wire (counters are decimal strings). -/

/-- Redis hash contents: field name to string value. -/
abbrev RHash := List (String × String)

/-- Contents of the external Redis store. -/
structure RStore where
  hashes : List (String × RHash)
  strs : List (String × String)
  sets : List (String × List String)
  deriving DecidableEq, Repr

/-- Empty store. -/
def RStore.empty : RStore := ⟨[], [], []⟩

/-- Redis `HGETALL` (missing key yields the empty hash). -/
def RStore.hgetall (s : RStore) (key : String) : RHash :=
  (alGet s.hashes key).getD []

/-- Redis `HSET` for a single field. -/
def RStore.hset (s : RStore) (key field value : String) : RStore :=
  { s with hashes := alSet s.hashes key (alSet (s.hgetall key) field value) }

/-- Redis `HSET` with several field/value pairs. -/
def RStore.hsetMany (s : RStore) (key : String) (fields : List (String × String)) : RStore :=
  fields.foldl (fun acc fv => acc.hset key fv.1 fv.2) s

/-- Redis `HINCRBY` by 1: a missing field counts as 0.  (Redis would error on
a non-integer value; every value this program writes is decimal, so that path
is unreachable and not modelled.) -/
def RStore.hincr (s : RStore) (key field : String) : RStore :=
  let cur := (parseDec ((alGet (s.hgetall key) field).getD "0")).getD 0
  s.hset key field (natToDec (cur + 1))

/-- Redis `SET` (string value). -/
def RStore.setStr (s : RStore) (key value : String) : RStore :=
  { s with strs := alSet s.strs key value }

/-- Redis `GET` (string value), `none` for `redis.Nil`. -/
def RStore.getStr (s : RStore) (key : String) : Option String :=
  alGet s.strs key

/-- Redis `SADD` of one member. -/
def RStore.sadd (s : RStore) (key v : String) : RStore :=
  let cur := (alGet s.sets key).getD []
  { s with sets := alSet s.sets key (if v ∈ cur then cur else cur ++ [v]) }

/-- Redis `SMEMBERS` (missing key yields the empty set). -/
def RStore.smembers (s : RStore) (key : String) : List String :=
  (alGet s.sets key).getD []

/-- Redis `DEL` of one key (removes it from whichever kind holds it). -/
def RStore.del (s : RStore) (key : String) : RStore :=
  { hashes := alDel s.hashes key, strs := alDel s.strs key, sets := alDel s.sets key }

/-- Redis `KEYS` for the pattern `{pfx}*`: the stored hash keys matching the
prefix (the only pattern the program uses is `...:nodes:*`, which can only
match member-record keys). -/
def RStore.keysWithPfx (s : RStore) (pfx : String) : List String :=
  (s.hashes.map Prod.fst).filter (fun k => strHasPfx k pfx)

/-- Source `Member` (`storage.go`): every persisted field is carried as the raw
string read from Redis; `State` is the string-typed `MemberState`. -/
structure Member where
  ID : String
  Address : String
  Path : String
  JoinedAt : String
  LastHeartbeat : String
  HeartbeatCount : String
  HeartbeatFailures : String
  State : String
  deriving DecidableEq, Repr

/-- Storage-level errors (`ErrNodePropertyNotFound`). Redis connection errors
never occur in the pure model. -/
inductive StoreErr
  | propertyNotFound (p : String)
  deriving DecidableEq, Repr

/-- Key-prefix configuration of the storage adapter (the Go struct fields
`prefix` and `namespace`; both are Lean keywords, hence the short names). -/
structure Storage where
  pfx : String
  nsp : String
  deriving DecidableEq, Repr

/-- Source `makeKey` (`storage.go`): `fmt.Sprintf("%s:%s:%s", prefix, namespace,
strings.Join(parts, ":"))`. -/
def Storage.makeKey (s : Storage) (parts : List String) : String :=
  s.pfx ++ ":" ++ s.nsp ++ ":" ++ joinColon parts

/-- Source `Storage.AddNode` (`storage.go`): writes the member hash with both
timestamps at `now`, counters `"0"` and state `"alive"`.  Note the field
spelling `hearbeat_count` (sic, as in the source) for the heartbeat counter,
but `heartbeat_failure_count` for the failure counter. -/
def Storage.AddNode (cfg : Storage) (st : RStore) (now nodeID address path : String)
    (port : Nat) : RStore :=
  let key := cfg.makeKey ["nodes", nodeID]
  let nodeAddress := address ++ ":" ++ natToDec port
  st.hsetMany key
    [("address", nodeAddress), ("path", path), ("joined_at", now),
     ("last_heartbeat", now), ("hearbeat_count", "0"),
     ("heartbeat_failure_count", "0"), ("state", "alive")]

/-- Source `Storage.UpdateNodeHeartbeat` (`storage.go`). -/
def Storage.UpdateNodeHeartbeat (cfg : Storage) (st : RStore) (now nodeID : String) : RStore :=
  st.hset (cfg.makeKey ["nodes", nodeID]) "last_heartbeat" now

/-- Source `Storage.UpdateNodeState` (`storage.go`). -/
def Storage.UpdateNodeState (cfg : Storage) (st : RStore) (nodeID state : String) : RStore :=
  st.hset (cfg.makeKey ["nodes", nodeID]) "state" state

/-- Source `Storage.IncrementHeartbeats` (`storage.go`): `HIncrBy` on the field
`hearbeat_count` (sic). -/
def Storage.IncrementHeartbeats (cfg : Storage) (st : RStore) (nodeID : String) : RStore :=
  st.hincr (cfg.makeKey ["nodes", nodeID]) "hearbeat_count"

/-- Source `Storage.IncrementHeartbeatFailures` (`storage.go`): `HIncrBy` on the
field `hearbeat_failure_count` — the spelling is verbatim from the source and
differs from the `heartbeat_failure_count` field written by `AddNode`, read by
`GetNode` and reset by `ResetHeartbeatFailures`. -/
def Storage.IncrementHeartbeatFailures (cfg : Storage) (st : RStore) (nodeID : String) : RStore :=
  st.hincr (cfg.makeKey ["nodes", nodeID]) "hearbeat_failure_count"

/-- Source `Storage.ResetHeartbeatFailures` (`storage.go`): `HSet` of
`heartbeat_failure_count` to `"0"`. -/
def Storage.ResetHeartbeatFailures (cfg : Storage) (st : RStore) (nodeID : String) : RStore :=
  st.hset (cfg.makeKey ["nodes", nodeID]) "heartbeat_failure_count" "0"

/-- Source `Storage.GetNode` (`storage.go`): `HGetAll`; an empty reply models the
`(nil, nil)` return; otherwise each field is required in turn (the early
`return nil, NewErrNodePropertyNotFound(...)` statements become the error
arms of the nested matches). -/
def Storage.GetNode (cfg : Storage) (st : RStore) (nodeID : String) :
    Except StoreErr (Option Member) :=
  let value := st.hgetall (cfg.makeKey ["nodes", nodeID])
  if value.isEmpty then .ok none
  else
    match alGet value "address" with
    | none => .error (.propertyNotFound "address")
    | some address =>
      match alGet value "path" with
      | none => .error (.propertyNotFound "path")
      | some path =>
        match alGet value "joined_at" with
        | none => .error (.propertyNotFound "joined_at")
        | some joinedAt =>
          match alGet value "last_heartbeat" with
          | none => .error (.propertyNotFound "last_heartbeat")
          | some lastHeartbeat =>
            match alGet value "hearbeat_count" with
            | none => .error (.propertyNotFound "hearbeat_count")
            | some heartbeatCount =>
              match alGet value "heartbeat_failure_count" with
              | none => .error (.propertyNotFound "heartbeat_failure_count")
              | some heartbeatFailures =>
                match alGet value "state" with
                | none => .error (.propertyNotFound "state")
                | some state =>
                  .ok (some { ID := nodeID, Address := address, Path := path,
                              JoinedAt := joinedAt, LastHeartbeat := lastHeartbeat,
                              HeartbeatCount := heartbeatCount,
                              HeartbeatFailures := heartbeatFailures, State := state })

/-- Result of `Storage.GetNodes`, which in Go can also crash on a nil-pointer
dereference (`*member` with `member == nil`). -/
inductive GetNodesResult
  | ok (members : List Member)
  | err (e : StoreErr)
  | nilDeref
  deriving DecidableEq, Repr

/-- Loop body of `Storage.GetNodes` (`storage.go`) over the scanned keys: for
each key, trim the `nodes:` key prefix, fetch the record, and append
`*member`.  When `GetNode` returns `(nil, nil)` — the record disappeared
between the scan and the fetch — the Go code dereferences the nil pointer. -/
def Storage.getNodesLoop (cfg : Storage) (st : RStore) (acc : List Member) :
    List String → GetNodesResult
  | [] => .ok acc
  | key :: rest =>
    let nodeId := trimPfx key (cfg.makeKey ["nodes", ""])
    match cfg.GetNode st nodeId with
    | .error e => .err e
    | .ok none => .nilDeref
    | .ok (some m) => cfg.getNodesLoop st (acc ++ [m]) rest

/-- Source `Storage.GetNodes` applied to an explicit scan snapshot: `scanned` is
the key list the `KEYS nodes:*` call returned, and `st` is the store contents
at the time the individual records are fetched (they may differ when records
appear or disappear between the scan and the reads). -/
def Storage.GetNodesFrom (cfg : Storage) (st : RStore) (scanned : List String) :
    GetNodesResult :=
  cfg.getNodesLoop st [] scanned

/-- Source `Storage.GetNodes` when nothing moves between the scan and the
reads: the scan is taken from the same store contents. -/
def Storage.GetNodes (cfg : Storage) (st : RStore) : GetNodesResult :=
  cfg.GetNodesFrom st (st.keysWithPfx (cfg.makeKey ["nodes", ""]))

end Pantheon

namespace Pantheon

/-! ## Coordinator (`pantheon.go`, `heartbeat.go`, `distribution.go`)

The coordinator instance is modelled by the state its operations read and
write: the storage configuration, the Redis contents, the hash ring, the
configured failure threshold, the `started` flag, and the list of
`PantheonEvent` values sent on `EventsCh` (in send order).  `EventsCh` and the
hash ring are always non-nil in the source paths modelled here, so the
corresponding nil guards are always taken in the affirmative. -/

/-- Source `PantheonEvent` (`events.go`). -/
structure PantheonEvent where
  Event : String
  NodeID : String
  deriving DecidableEq, Repr

/-- Source `HearbeatEvent` (`heartbeat.go`); the wrapped probe error is only
logged and is dropped from the model. -/
structure HearbeatEvent where
  NodeID : String
  Event : String
  deriving DecidableEq, Repr

/-- State of one `Pantheon` coordinator. -/
structure Cluster where
  storage : Storage
  store : RStore
  hashRing : Hashring.HashRing
  heartbeatMaxFailures : Nat
  started : Bool
  events : List PantheonEvent
  deriving DecidableEq, Repr

/-- Source `getHeartbeatFailureCount` (`heartbeat.go`): `fmt.Sscanf(count, "%d")`.
Every value the program stores in the counter fields is a canonical decimal
numeral, on which the scan is exactly `String.toNat?`. -/
def getHeartbeatFailureCount (count : String) : Option Nat :=
  parseDec count

/-- Source `handleHeartbeatEvent` (`heartbeat.go`), the single-consumer state
machine.  Mutations performed before an early `return` are kept, as in the
source.  The goroutine spawned on the dead transition (redistribution of the
dead node's keys) is modelled separately as `deadNodeRebalance`, to be applied
after the handler (see C5). -/
def handleHeartbeatEvent (c : Cluster) (now : String) (event : HearbeatEvent) : Cluster :=
  match c.storage.GetNode c.store event.NodeID with
  | .error _ => c          -- "error getting node": log and return
  | .ok none => c          -- "node not found": log and return
  | .ok (some node) =>
    if event.Event = "success" then
      let store := c.storage.UpdateNodeHeartbeat c.store now event.NodeID
      if node.State ≠ "alive" then
        let store := c.storage.UpdateNodeState store event.NodeID "alive"
        let ring := ((c.hashRing.UpdateNodeStatus event.NodeID .active).toOption).getD c.hashRing
        { c with store := store, hashRing := ring,
                 events := c.events ++ [⟨"revived", event.NodeID⟩] }
      else
        { c with store := store }
    else if event.Event = "failure" then
      let store := c.storage.IncrementHeartbeatFailures c.store event.NodeID
      -- the threshold is checked against `node.HeartbeatFailures`, the value
      -- fetched by the GetNode call above, before the increment
      match getHeartbeatFailureCount node.HeartbeatFailures with
      | none => { c with store := store }    -- parse error: log and return
      | some failures =>
        if failures ≥ c.heartbeatMaxFailures then
          if node.State ≠ "dead" then
            let store := c.storage.UpdateNodeState store event.NodeID "dead"
            let ring :=
              ((c.hashRing.UpdateNodeStatus event.NodeID .inactive).toOption).getD c.hashRing
            { c with store := store, hashRing := ring,
                     events := c.events ++ [⟨"died", event.NodeID⟩] }
          else
            { c with store := store }
        else
          if node.State = "alive" then
            { c with store := c.storage.UpdateNodeState store event.NodeID "suspect" }
          else
            { c with store := store }
    else c

/-- Errors of `Distribute` (`distribution.go`), which wraps them in strings. -/
inductive DistErr
  | notStarted                                  -- "cluster not started"
  | noNodesInRing                               -- "no nodes in the hash ring"
  | gettingNode (key : String) (e : Hashring.RingErr)  -- "error getting node for key"
  deriving DecidableEq, Repr

/-- The two writes `Distribute` performs for one key once the ring has chosen
its node: `SET keymap:{key} = nodeID` and `SADD nodekeys:{nodeID} key`. -/
def distributeWrites (cfg : Storage) (st : RStore) (key nodeID : String) : RStore :=
  let st := st.setStr (cfg.makeKey ["keymap", key]) nodeID
  st.sadd (cfg.makeKey ["nodekeys", nodeID]) key

/-- Loop of `Distribute` (`distribution.go`): on a ring-lookup failure the
function returns at once, keeping every write already performed.  (The local
`distribution` map only feeds log output and is omitted.) -/
def distributeLoop (cfg : Storage) (ring : Hashring.HashRing) (st : RStore) :
    List String → RStore × Option DistErr
  | [] => (st, none)
  | key :: rest =>
    match ring.GetNode key with
    | .error e => (st, some (.gettingNode key e))
    | .ok node => distributeLoop cfg ring (distributeWrites cfg st key node.ID) rest

/-- Source `Pantheon.Distribute` (`distribution.go`).  The `hashRing == nil`
guard is omitted: the model's ring is always present, as after `New`. -/
def Distribute (c : Cluster) (keys : List String) : Cluster × Option DistErr :=
  if !c.started then (c, some .notStarted)
  else if c.hashRing.GetNodeCount = 0 then (c, some .noNodesInRing)
  else
    let r := distributeLoop c.storage c.hashRing c.store keys
    ({ c with store := r.1 }, r.2)

/-- Body of the goroutine spawned by `handleHeartbeatEvent` on the dead
transition: read `SMEMBERS nodekeys:{id}` and, if non-empty, `Distribute`
those keys. -/
def deadNodeRebalance (c : Cluster) (nodeID : String) : Cluster × Option DistErr :=
  let keys := c.store.smembers (c.storage.makeKey ["nodekeys", nodeID])
  if keys.length > 0 then Distribute c keys else (c, none)

/-- Errors of `Join` (`pantheon.go`). -/
inductive JoinErr
  | notStarted                       -- "cluster not started"
  | storeErr (e : StoreErr)
  | alreadyExists (id : String)      -- "node %s already exists"
  | ringErr (e : Hashring.RingErr)
  deriving DecidableEq, Repr

/-- Source `JoinOp` (`pantheon.go`). -/
structure JoinOp where
  ID : String
  Address : String
  Port : Nat
  Path : String
  deriving DecidableEq, Repr

/-- Source `Pantheon.Join` (`pantheon.go`).  After the storage write succeeds,
a failing ring insertion returns its error with the storage write left in
place (the source performs no rollback).  The trailing `joined` event is sent
only on full success; the out-of-band `PingNode` goroutine only produces a
heartbeat event and is outside this model. -/
def Join (c : Cluster) (now : String) (op : JoinOp) : Cluster × Option JoinErr :=
  if !c.started then (c, some .notStarted)
  else
    match c.storage.GetNode c.store op.ID with
    | .error e => (c, some (.storeErr e))
    | .ok (some _) => (c, some (.alreadyExists op.ID))
    | .ok none =>
      let addr := op.Address ++ ":" ++ natToDec op.Port
      let store := c.storage.AddNode c.store now op.ID op.Address op.Path op.Port
      match c.hashRing.AddNode (some { ID := op.ID, Address := addr, Status := .active }) with
      | .error e => ({ c with store := store }, some (.ringErr e))
      | .ok ring =>
        ({ c with store := store, hashRing := ring,
                  events := c.events ++ [⟨"joined", op.ID⟩] }, none)

end Pantheon

namespace Pantheon

/-! ## Small lemmas about the association-list map model -/

theorem alGet_alSet_self {α β : Type} [DecidableEq α] (l : List (α × β)) (k : α) (v : β) :
    alGet (alSet l k v) k = some v := by
  induction l with
  | nil => simp [alSet, alGet]
  | cons p rest ih =>
    obtain ⟨a, b⟩ := p
    by_cases h : k = a <;> simp [alSet, alGet, h, ih]

theorem alGet_alSet_ne {α β : Type} [DecidableEq α] (l : List (α × β)) (k k' : α) (v : β)
    (h : k' ≠ k) : alGet (alSet l k v) k' = alGet l k' := by
  induction l with
  | nil => simp [alSet, alGet, h]
  | cons p rest ih =>
    obtain ⟨a, b⟩ := p
    by_cases hk : k = a
    · subst hk
      simp [alSet, alGet, h]
    · by_cases hk' : k' = a <;> simp [alSet, alGet, hk, hk', ih]

theorem alGet_of_mem_nodupKeys {α β : Type} [DecidableEq α] (l : List (α × β)) (p : α × β)
    (hmem : p ∈ l) (hnd : (l.map Prod.fst).Nodup) : alGet l p.1 = some p.2 := by
  induction l with
  | nil => simp at hmem
  | cons q rest ih =>
    obtain ⟨a, b⟩ := q
    simp only [List.map_cons, List.nodup_cons] at hnd
    rcases List.mem_cons.mp hmem with h | h
    · subst h
      simp [alGet]
    · have hne : p.1 ≠ a := by
        intro he
        exact hnd.1 (he ▸ List.mem_map_of_mem Prod.fst h)
      simp [alGet, hne, ih h hnd.2]

/-! ## Reading back what the storage adapter wrote -/

theorem hgetall_hset_self (s : RStore) (key f v : String) :
    (s.hset key f v).hgetall key = alSet (s.hgetall key) f v := by
  simp [RStore.hset, RStore.hgetall, alGet_alSet_self]

theorem hgetall_hset_ne (s : RStore) (key key' f v : String) (h : key' ≠ key) :
    (s.hset key f v).hgetall key' = s.hgetall key' := by
  simp [RStore.hset, RStore.hgetall, alGet_alSet_ne _ _ _ _ h]

/-- Inversion for a successful `Storage.GetNode`: each member field is the
string stored in the corresponding hash field. -/
theorem getNode_ok_some {cfg : Storage} {st : RStore} {id : String} {m : Member}
    (h : cfg.GetNode st id = .ok (some m)) :
    alGet (st.hgetall (cfg.makeKey ["nodes", id])) "state" = some m.State ∧
    alGet (st.hgetall (cfg.makeKey ["nodes", id])) "heartbeat_failure_count"
      = some m.HeartbeatFailures := by
  simp only [Storage.GetNode] at h
  split at h
  · exact absurd h (by simp)
  · split at h
    · exact absurd h (by simp)
    · split at h
      · exact absurd h (by simp)
      · split at h
        · exact absurd h (by simp)
        · split at h
          · exact absurd h (by simp)
          · split at h
            · exact absurd h (by simp)
            · split at h
              · exact absurd h (by simp)
              · split at h
                · exact absurd h (by simp)
                · rw [Except.ok.injEq, Option.some.injEq] at h
                  subst h
                  constructor <;> assumption

end Pantheon

namespace Pantheon

open Hashring

/-! ## Concrete scenario states used by several claims -/

set_option maxRecDepth 1000000

/-- Default key-prefix configuration (`prefix = "pantheon"`, `name =
"my-cluster"`). -/
def cfgD : Storage := ⟨"pantheon", "my-cluster"⟩

/-- A ring node `a`, as `Join` would insert it. -/
def nodeA : Node := { ID := "a", Address := "a:1", Status := .active }

/-- A ring node `b`, as `Join` would insert it. -/
def nodeB : Node := { ID := "b", Address := "b:1", Status := .active }

/-- Extract the ring from a successful ring operation (the error arm is never
hit in the concrete runs below, where the operation is proved to succeed). -/
def ringOf (e : Except RingErr HashRing) : HashRing :=
  match e with
  | .ok r => r
  | .error _ => NewHashRing 1

/-- A ring with replica count 2 holding node `a`, built by `AddNode`. -/
def ringA : HashRing := ringOf ((NewHashRing 2).AddNode (some nodeA))

/-- A ring with replica count 2 holding nodes `a` and `b`, built by `AddNode`. -/
def ringAB : HashRing := ringOf (ringA.AddNode (some nodeB))

/-- The result of removing `a` from the one-node ring. -/
def ringARemoved : Except RingErr HashRing := ringA.RemoveNode "a"

/-- Store contents after `Storage.AddNode` for a member `a` (timestamps are
the literal `"100"`). -/
def storeA : RStore := cfgD.AddNode RStore.empty "100" "a" "http://a" "h" 80

/-- Redis key of member `a`'s record. -/
def keyA : String := cfgD.makeKey ["nodes", "a"]

/-- Coordinator state with member `a` persisted, ring `ringA`, threshold 5. -/
def c2Start : Cluster :=
  { storage := cfgD, store := storeA, hashRing := ringA,
    heartbeatMaxFailures := 5, started := true, events := [] }

/-- State after `n` consecutive failure events for `a` have been handled. -/
def c2After (n : Nat) : Cluster :=
  (List.range n).foldl (fun acc _ => handleHeartbeatEvent acc "200" ⟨"a", "failure"⟩) c2Start

/-- Persisted state string of a member, read back through `Storage.GetNode`. -/
def memberState (c : Cluster) (id : String) : Option String :=
  match c.storage.GetNode c.store id with
  | .ok (some m) => some m.State
  | _ => none

/-! ## C10 -/

/-- C10: `NewHashRing` never fails; for every `replicaCount ≤ 0` it silently
substitutes the default of 10 virtual nodes per physical node and returns an
empty ring. -/
theorem C10_newHashRing_defaults_on_nonpositive (rc : Int) (h : rc ≤ 0) :
    NewHashRing rc
      = { nodes := [], virtualNodes := [], sortedHashes := [], replicaCount := 10 } := by
  simp [NewHashRing, h]

/-- Witness for C10 at the concrete input `-3`. -/
theorem C10_witness :
    NewHashRing (-3)
      = { nodes := [], virtualNodes := [], sortedHashes := [], replicaCount := 10 } :=
  C10_newHashRing_defaults_on_nonpositive (-3) (by decide)

/-! ## C1 -/

/-- C1 (claim fails; code bug): the claim asserts that after each successful
`AddNode`/`RemoveNode` the sorted hash list has length `R × #nodes`, is
sorted, and holds no hash of a removed node.  Evaluating the code at the
failing input `NewHashRing(2); AddNode(a); RemoveNode("a")` shows the list
still has 2 entries — both of them the removed node's stale virtual hashes,
in unsorted order — instead of being empty. -/
theorem C1_removeNode_leaves_stale_hashes :
    ringARemoved
      = .ok { nodes := [], virtualNodes := [],
              sortedHashes := [crc32 (virtualNodeKey "a" 1), crc32 (virtualNodeKey "a" 0)],
              replicaCount := 2 } ∧
    (ringOf ringARemoved).sortedHashes.length = 2 ∧
    2 * (ringOf ringARemoved).nodes.length = 0 ∧
    crc32 (virtualNodeKey "a" 0) ∈ (ringOf ringARemoved).sortedHashes ∧
    (ringOf ringARemoved).sortedHashes.getD 1 0 < (ringOf ringARemoved).sortedHashes.getD 0 0 := by
  decide

/-! ## C2 -/

/-- C2 (claim fails; code bug): with `heartbeatMaxFailures = 5` and a fresh
alive member, 5 consecutive failure events do NOT make the node dead, and no
`died` event is ever emitted — even after 12 failures the state is still
`suspect`.  The increment writes the misspelled field
`hearbeat_failure_count`, while the threshold compares the (pre-increment)
`heartbeat_failure_count` value fetched at the start of the handler, which
stays `"0"` forever. -/
theorem C2_threshold_never_reaches_dead :
    memberState (c2After 5) "a" = some "suspect" ∧
    (c2After 5).events = [] ∧
    memberState (c2After 12) "a" = some "suspect" ∧
    (c2After 12).events = [] ∧
    alGet ((c2After 12).store.hgetall keyA) "heartbeat_failure_count" = some "0" ∧
    alGet ((c2After 12).store.hgetall keyA) "hearbeat_failure_count" = some "12" := by
  decide

/-! ## C6 -/

/-- C6 (claim fails; code bug): `IncrementHeartbeatFailures` writes the
misspelled hash field `hearbeat_failure_count`, while `GetNode` reads
`heartbeat_failure_count`, so the member read back after an increment still
reports `HeartbeatFailures = "0"` instead of one greater. -/
theorem C6_increment_invisible_to_getNode :
    (cfgD.GetNode storeA "a").map (Option.map Member.HeartbeatFailures) = .ok (some "0") ∧
    (cfgD.GetNode (cfgD.IncrementHeartbeatFailures storeA "a") "a").map
        (Option.map Member.HeartbeatFailures) = .ok (some "0") ∧
    alGet ((cfgD.IncrementHeartbeatFailures storeA "a").hgetall keyA)
        "hearbeat_failure_count" = some "1" := by
  decide

/-! ## C7 -/

/-- C7 (claim fails; code bug): when the scan of `nodes:*` returns member
`a`'s key but the record is deleted before it is fetched, `GetNodes`
dereferences the nil member pointer (modelled as the `nilDeref` outcome)
instead of tolerating the disappearance. -/
theorem C7_getNodes_nil_deref_on_vanished_record :
    storeA.keysWithPfx (cfgD.makeKey ["nodes", ""]) = [keyA] ∧
    cfgD.GetNodesFrom (storeA.del keyA) (storeA.keysWithPfx (cfgD.makeKey ["nodes", ""]))
      = .nilDeref := by
  decide

end Pantheon

namespace Pantheon

/-! ## C3 -/

/-- Store contents of member `a` whose failure counter field holds `"3"` and
whose state is `suspect`. -/
def storeSuspect3 : RStore :=
  cfgD.UpdateNodeState (storeA.hset keyA "heartbeat_failure_count" "3") "a" "suspect"

/-- The member record `Storage.GetNode` returns for `storeSuspect3`. -/
def m3 : Member :=
  { ID := "a", Address := "http://a:80", Path := "h", JoinedAt := "100",
    LastHeartbeat := "100", HeartbeatCount := "0", HeartbeatFailures := "3",
    State := "suspect" }

/-- Coordinator state around `storeSuspect3`. -/
def c3Start : Cluster :=
  { storage := cfgD, store := storeSuspect3, hashRing := ringA,
    heartbeatMaxFailures := 5, started := true, events := [] }

/-- The state after one success event for `a` is handled. -/
def c3Post : Cluster := handleHeartbeatEvent c3Start "300" ⟨"a", "success"⟩

/-- C3 (counterexample): a success event for a suspect node whose persisted
failure counter is `"3"` transitions it to `alive` and emits `revived`, but
the counter is NOT reset to 0 — the field still holds `"3"` afterwards,
refuting the reset part of the claim. -/
theorem C3_counterexample :
    memberState c3Post "a" = some "alive" ∧
    c3Post.events = [⟨"revived", "a"⟩] ∧
    alGet (c3Post.store.hgetall keyA) "heartbeat_failure_count" = some "3" ∧
    alGet (c3Post.store.hgetall keyA) "heartbeat_failure_count" ≠ some "0" := by
  decide

/-- C3 (amended): processing a success event sets the node's persisted state
to `alive` and emits `revived` iff the prior state was `suspect` or `dead`,
but it does NOT reset the failure counter: both failure-count fields (the one
`GetNode` reads and the misspelled one the increment writes) are left
unchanged. -/
theorem C3_success_sets_alive_but_keeps_failures (c : Cluster) (now id : String) (m : Member)
    (hget : c.storage.GetNode c.store id = .ok (some m))
    (hstate : m.State = "alive" ∨ m.State = "suspect" ∨ m.State = "dead") :
    alGet ((handleHeartbeatEvent c now ⟨id, "success"⟩).store.hgetall
        (c.storage.makeKey ["nodes", id])) "state" = some "alive" ∧
    alGet ((handleHeartbeatEvent c now ⟨id, "success"⟩).store.hgetall
        (c.storage.makeKey ["nodes", id])) "heartbeat_failure_count"
      = alGet (c.store.hgetall (c.storage.makeKey ["nodes", id])) "heartbeat_failure_count" ∧
    alGet ((handleHeartbeatEvent c now ⟨id, "success"⟩).store.hgetall
        (c.storage.makeKey ["nodes", id])) "hearbeat_failure_count"
      = alGet (c.store.hgetall (c.storage.makeKey ["nodes", id])) "hearbeat_failure_count" ∧
    (handleHeartbeatEvent c now ⟨id, "success"⟩).events
      = c.events ++ (if m.State = "suspect" ∨ m.State = "dead"
                     then [⟨"revived", id⟩] else []) := by
  have hfields := getNode_ok_some hget
  unfold handleHeartbeatEvent
  rw [hget]
  simp only [reduceIte]
  by_cases hm : m.State = "alive"
  · simp only [hm, ne_eq, not_true_eq_false, reduceIte,
      Storage.UpdateNodeHeartbeat, hgetall_hset_self]
    refine ⟨?_, ?_, ?_, ?_⟩
    · rw [alGet_alSet_ne _ _ _ _ (by decide)]
      rw [hfields.1, hm]
    · rw [alGet_alSet_ne _ _ _ _ (by decide)]
    · rw [alGet_alSet_ne _ _ _ _ (by decide)]
    · have h1 : ¬ (m.State = "suspect" ∨ m.State = "dead") := by
        rw [hm]; decide
      simp [h1]
  · simp only [ne_eq, hm, not_false_eq_true, reduceIte,
      Storage.UpdateNodeState, Storage.UpdateNodeHeartbeat, hgetall_hset_self]
    refine ⟨?_, ?_, ?_, ?_⟩
    · rw [alGet_alSet_self]
    · rw [alGet_alSet_ne _ _ _ _ (by decide), alGet_alSet_ne _ _ _ _ (by decide)]
    · rw [alGet_alSet_ne _ _ _ _ (by decide), alGet_alSet_ne _ _ _ _ (by decide)]
    · have h1 : m.State = "suspect" ∨ m.State = "dead" := by
        rcases hstate with h | h | h
        · exact absurd h hm
        · exact Or.inl h
        · exact Or.inr h
      simp [h1]

/-- Witness for the amended C3 at the concrete suspect-with-counter-3 state. -/
theorem C3_amended_witness :
    alGet ((handleHeartbeatEvent c3Start "300" ⟨"a", "success"⟩).store.hgetall
        (c3Start.storage.makeKey ["nodes", "a"])) "state" = some "alive" ∧
    alGet ((handleHeartbeatEvent c3Start "300" ⟨"a", "success"⟩).store.hgetall
        (c3Start.storage.makeKey ["nodes", "a"])) "heartbeat_failure_count"
      = alGet (c3Start.store.hgetall (c3Start.storage.makeKey ["nodes", "a"]))
          "heartbeat_failure_count" ∧
    alGet ((handleHeartbeatEvent c3Start "300" ⟨"a", "success"⟩).store.hgetall
        (c3Start.storage.makeKey ["nodes", "a"])) "hearbeat_failure_count"
      = alGet (c3Start.store.hgetall (c3Start.storage.makeKey ["nodes", "a"]))
          "hearbeat_failure_count" ∧
    (handleHeartbeatEvent c3Start "300" ⟨"a", "success"⟩).events
      = c3Start.events ++ (if m3.State = "suspect" ∨ m3.State = "dead"
                           then [⟨"revived", "a"⟩] else []) :=
  C3_success_sets_alive_but_keeps_failures c3Start "300" "a" m3 (by decide) (by decide)

end Pantheon

namespace Pantheon

/-! ## C8 -/

/-- Coordinator whose ring already contains `a` (an injected ring, as `New`
permits via the options) while the store has no record — the store write of a
`Join("a")` then succeeds and the ring insertion fails. -/
def c8Start : Cluster :=
  { storage := cfgD, store := RStore.empty, hashRing := ringA,
    heartbeatMaxFailures := 5, started := true, events := [] }

/-- The member record `Storage.GetNode` returns for `storeA`. -/
def mA : Member :=
  { ID := "a", Address := "http://a:80", Path := "h", JoinedAt := "100",
    LastHeartbeat := "100", HeartbeatCount := "0", HeartbeatFailures := "0",
    State := "alive" }

/-- C8 (counterexample): a `Join` whose ring insertion fails returns the error
but leaves the member record it wrote in the Store — the store is changed, so
the failed call was not rolled back, refuting the atomicity part of the
claim. -/
theorem C8_counterexample :
    (Join c8Start "100" ⟨"a", "http://a", 80, "h"⟩).2
      = some (.ringErr .nodeExists) ∧
    (Join c8Start "100" ⟨"a", "http://a", 80, "h"⟩).1.store.hgetall keyA ≠ [] ∧
    c8Start.store.hgetall keyA = [] := by
  decide

/-- C8 (amended): on a started coordinator, `Join` fails with `AlreadyExists`
when the Store already holds a record for the id (leaving the state
unchanged); but it is NOT atomic: when the Ring insertion fails after the
Store write, `Join` returns the ring error with the Store write left in
place. -/
theorem C8_join_duplicate_rejected_but_no_rollback :
    (∀ (c : Cluster) (now : String) (op : JoinOp) (m : Member),
      c.started = true →
      c.storage.GetNode c.store op.ID = .ok (some m) →
      Join c now op = (c, some (.alreadyExists op.ID))) ∧
    (∀ (c : Cluster) (now : String) (op : JoinOp) (e : Hashring.RingErr),
      c.started = true →
      c.storage.GetNode c.store op.ID = .ok none →
      c.hashRing.AddNode
          (some { ID := op.ID, Address := op.Address ++ ":" ++ natToDec op.Port,
                  Status := .active }) = .error e →
      Join c now op
        = ({ c with store := c.storage.AddNode c.store now op.ID op.Address op.Path op.Port },
           some (.ringErr e))) := by
  constructor
  · intro c now op m hs hget
    unfold Join
    rw [hs, hget]
    simp
  · intro c now op e hs hget hring
    unfold Join
    rw [hs, hget]
    simp only [Bool.not_true, Bool.false_eq_true, reduceIte]
    rw [hring]

/-- Witness for the amended C8: a duplicate join on `c2Start` (whose store
holds `a`) is rejected, and a join on `c8Start` (whose injected ring holds
`a` but whose store does not) fails in the ring yet keeps the store write. -/
theorem C8_amended_witness :
    Join c2Start "100" ⟨"a", "http://a", 80, "h"⟩ = (c2Start, some (.alreadyExists "a")) ∧
    Join c8Start "100" ⟨"a", "http://a", 80, "h"⟩
      = ({ c8Start with
            store := c8Start.storage.AddNode c8Start.store "100" "a" "http://a" "h" 80 },
         some (.ringErr .nodeExists)) :=
  ⟨C8_join_duplicate_rejected_but_no_rollback.1 c2Start "100" ⟨"a", "http://a", 80, "h"⟩ mA
      rfl (by decide),
   C8_join_duplicate_rejected_but_no_rollback.2 c8Start "100" ⟨"a", "http://a", 80, "h"⟩
      .nodeExists rfl (by decide) (by decide)⟩

end Pantheon

namespace Pantheon

open Hashring

/-! ## C9 -/

/-- The loop of `Distribute` on a key list whose first lookup failure occurs
after a successful prefix: it stops at the failing key with exactly the
prefix's writes applied. -/
theorem distributeLoop_stops_at_error (cfg : Storage) (ring : HashRing)
    (ks1 : List String) (key : String) (e : RingErr) (ks2 : List String)
    (hok : ∀ k ∈ ks1, ∃ n, ring.GetNode k = .ok n)
    (herr : ring.GetNode key = .error e) :
    ∀ st : RStore,
      distributeLoop cfg ring st (ks1 ++ key :: ks2)
        = ((distributeLoop cfg ring st ks1).1, some (.gettingNode key e)) ∧
      (distributeLoop cfg ring st ks1).2 = none := by
  induction ks1 with
  | nil =>
    intro st
    simp [distributeLoop, herr]
  | cons k rest ih =>
    intro st
    obtain ⟨n, hn⟩ := hok k (by simp)
    simp only [List.cons_append, distributeLoop, hn]
    exact ih (fun k hk => hok k (by simp [hk])) (distributeWrites cfg st k n.ID)

/-- C9: `Distribute` is not atomic over its key list: if the ring lookup
fails at some key after a prefix of keys on which it succeeds, `Distribute`
returns that error at once — the keys after the failing one are never
processed — and the forward/reverse mappings already written for the prefix
remain in the returned store. -/
theorem C9_distribute_not_atomic (c : Cluster) (ks1 : List String) (key : String)
    (e : RingErr) (ks2 : List String)
    (hs : c.started = true) (hnz : c.hashRing.GetNodeCount ≠ 0)
    (hok : ∀ k ∈ ks1, ∃ n, c.hashRing.GetNode k = .ok n)
    (herr : c.hashRing.GetNode key = .error e) :
    Distribute c (ks1 ++ key :: ks2)
      = ({ c with store := (distributeLoop c.storage c.hashRing c.store ks1).1 },
         some (.gettingNode key e)) ∧
    distributeLoop c.storage c.hashRing c.store ks1
      = ((distributeLoop c.storage c.hashRing c.store ks1).1, none) := by
  have hloop := distributeLoop_stops_at_error c.storage c.hashRing ks1 key e ks2 hok herr c.store
  constructor
  · unfold Distribute
    rw [hs]
    simp only [Bool.not_true, Bool.false_eq_true, reduceIte, hnz, hloop.1]
  · exact Prod.ext rfl hloop.2

/-- The corrupt but reachable ring `AddNode(a); AddNode(b); RemoveNode("b")`:
node `a` is active, yet the stale hash list still holds `b`'s virtual hashes,
on which `GetNode` fails with the internal lookup error. -/
def ringCorrupt : HashRing := ringOf (ringAB.RemoveNode "b")

/-- Coordinator state around `ringCorrupt` with an empty store. -/
def c9Start : Cluster :=
  { storage := cfgD, store := RStore.empty, hashRing := ringCorrupt,
    heartbeatMaxFailures := 5, started := true, events := [] }

/-- Witness for C9: on `["x", "k12", "y"]` the lookup succeeds for `"x"`,
fails for `"k12"` (its hash lands on a stale entry), so `Distribute` returns
the error with exactly `"x"`'s two writes applied and `"y"` unprocessed. -/
theorem C9_witness :
    Distribute c9Start (["x"] ++ "k12" :: ["y"])
      = ({ c9Start with
            store := (distributeLoop c9Start.storage c9Start.hashRing c9Start.store ["x"]).1 },
         some (.gettingNode "k12" (.internalMissing ""))) ∧
    distributeLoop c9Start.storage c9Start.hashRing c9Start.store ["x"]
      = ((distributeLoop c9Start.storage c9Start.hashRing c9Start.store ["x"]).1, none) :=
  C9_distribute_not_atomic c9Start ["x"] "k12" (.internalMissing "") ["y"] rfl (by decide)
    (by
      intro k hk
      simp only [List.mem_singleton] at hk
      subst hk
      exact ⟨nodeA, by decide⟩)
    (by decide)

end Pantheon

namespace Pantheon

open Hashring

/-! ## C5 -/

theorem strAppend_left_cancel (p a b : String) (h : p ++ a = p ++ b) : a = b :=
  String.ext (List.append_cancel_left (congrArg String.data h))

/-- Two-part storage keys of the same kind are equal only for equal file
arguments (the key is the fixed prefix followed by the argument). -/
theorem makeKey_pair_inj (cfg : Storage) (kind k1 k2 : String)
    (h : cfg.makeKey [kind, k1] = cfg.makeKey [kind, k2]) : k1 = k2 := by
  simp only [Storage.makeKey, joinColon] at h
  exact strAppend_left_cancel _ _ _ (strAppend_left_cancel _ _ _ h)

/-- Adding to any set never removes a member from any set. -/
theorem smembers_sadd_mono (st : RStore) (key key2 v x : String)
    (hx : x ∈ st.smembers key) : x ∈ (st.sadd key2 v).smembers key := by
  unfold RStore.smembers RStore.sadd at *
  by_cases h : key = key2
  · subst h
    rw [alGet_alSet_self]
    simp only [Option.getD_some]
    split
    · exact hx
    · exact List.mem_append_left _ hx
  · rw [alGet_alSet_ne _ _ _ _ h]
    exact hx

/-- The key a member of the added set: `SADD key v` makes `v ∈ key`. -/
theorem mem_smembers_sadd_self (st : RStore) (key v : String) :
    v ∈ (st.sadd key v).smembers key := by
  unfold RStore.smembers RStore.sadd
  rw [alGet_alSet_self]
  simp only [Option.getD_some]
  split
  · assumption
  · exact List.mem_append_right _ (by simp)

/-- After quiescence the property `Distribute` establishes for a key: the
forward mapping points at some node and the key is in that node's reverse
set. -/
def keyMapped (cfg : Storage) (st : RStore) (k : String) : Prop :=
  ∃ id, st.getStr (cfg.makeKey ["keymap", k]) = some id ∧
        k ∈ st.smembers (cfg.makeKey ["nodekeys", id])

/-- The pair of writes for one key establishes `keyMapped` for that key. -/
theorem keyMapped_distributeWrites_self (cfg : Storage) (st : RStore) (k id : String) :
    keyMapped cfg (distributeWrites cfg st k id) k := by
  refine ⟨id, ?_, ?_⟩
  · show (RStore.sadd _ _ _).getStr _ = some id
    unfold RStore.sadd RStore.getStr RStore.setStr
    exact alGet_alSet_self _ _ _
  · exact mem_smembers_sadd_self _ _ _

/-- The pair of writes for one key preserves `keyMapped` for every key. -/
theorem keyMapped_distributeWrites (cfg : Storage) (st : RStore) (k k2 id2 : String)
    (h : keyMapped cfg st k) : keyMapped cfg (distributeWrites cfg st k2 id2) k := by
  obtain ⟨id, hmap, hmem⟩ := h
  by_cases hk : cfg.makeKey ["keymap", k2] = cfg.makeKey ["keymap", k]
  · have hkk : k2 = k := makeKey_pair_inj cfg "keymap" k2 k hk
    subst hkk
    exact keyMapped_distributeWrites_self cfg st k2 id2
  · refine ⟨id, ?_, smembers_sadd_mono _ _ _ _ _ hmem⟩
    show (RStore.sadd _ _ _).getStr _ = some id
    unfold RStore.sadd RStore.getStr RStore.setStr
    rw [alGet_alSet_ne _ _ _ _ (fun he => hk he.symm)]
    exact hmap

/-- The whole loop preserves `keyMapped` for every key. -/
theorem keyMapped_distributeLoop (cfg : Storage) (ring : HashRing) (ks : List String) :
    ∀ (st : RStore) (k : String), keyMapped cfg st k →
      keyMapped cfg (distributeLoop cfg ring st ks).1 k := by
  induction ks with
  | nil => intro st k h; exact h
  | cons k2 rest ih =>
    intro st k h
    unfold distributeLoop
    split
    · exact h
    · exact ih _ _ (keyMapped_distributeWrites cfg st k k2 _ h)

/-- The whole loop never removes members from any set. -/
theorem smembers_distributeLoop_mono (cfg : Storage) (ring : HashRing) (ks : List String) :
    ∀ (st : RStore) (key x : String), x ∈ st.smembers key →
      x ∈ (distributeLoop cfg ring st ks).1.smembers key := by
  induction ks with
  | nil => intro st key x h; exact h
  | cons k2 rest ih =>
    intro st key x h
    unfold distributeLoop
    split
    · exact h
    · exact ih _ _ _ (smembers_sadd_mono _ _ _ _ _ h)

/-- A successful loop establishes `keyMapped` for every key it distributed. -/
theorem distributeLoop_keyMapped_all (cfg : Storage) (ring : HashRing) (ks : List String) :
    ∀ (st : RStore), (distributeLoop cfg ring st ks).2 = none →
      ∀ k ∈ ks, keyMapped cfg (distributeLoop cfg ring st ks).1 k := by
  induction ks with
  | nil => intro st _ k hk; simp at hk
  | cons k2 rest ih =>
    intro st hnone k hk
    unfold distributeLoop at hnone ⊢
    rcases hg : ring.GetNode k2 with e | n
    · rw [hg] at hnone
      simp at hnone
    · rw [hg] at hnone
      dsimp only at hnone ⊢
      rcases List.mem_cons.mp hk with h | h
      · subst h
        exact keyMapped_distributeLoop cfg ring rest _ k
          (keyMapped_distributeWrites_self cfg _ k n.ID)
      · exact ih _ hnone k h

/-- C5 (amended): after the death-triggered redistribution of a dead node's
keys completes without error, every redistributed key is mapped forward to
some node and sits in that node's `nodekeys` set — but the redistribution
never cleans the dead node's own `nodekeys` set, so each such key ALSO stays
in `nodekeys:{dead}`, and the forward/reverse biconditional of the claim
fails for the dead node. -/
theorem C5_rebalance_maps_keys_but_keeps_dead_set (c : Cluster) (deadID : String)
    (hres : (deadNodeRebalance c deadID).2 = none) :
    ∀ k ∈ c.store.smembers (c.storage.makeKey ["nodekeys", deadID]),
      keyMapped c.storage (deadNodeRebalance c deadID).1.store k ∧
      k ∈ (deadNodeRebalance c deadID).1.store.smembers
            (c.storage.makeKey ["nodekeys", deadID]) := by
  intro k hk
  simp only [deadNodeRebalance] at hres ⊢
  split at hres
  case isTrue hlen =>
    rw [if_pos hlen]
    simp only [Distribute] at hres ⊢
    split at hres
    case isTrue hns => simp at hres
    case isFalse hns =>
      rw [if_neg hns]
      split at hres
      case isTrue hz => simp at hres
      case isFalse hz =>
        rw [if_neg hz]
        dsimp only at hres ⊢
        exact ⟨distributeLoop_keyMapped_all _ _ _ _ hres k hk,
               smembers_distributeLoop_mono _ _ _ _ _ _ hk⟩
  case isFalse hlen =>
    rw [not_lt, Nat.le_zero, List.length_eq_zero] at hlen
    rw [hlen] at hk
    simp at hk

end Pantheon

namespace Pantheon

/-! ## C5 concrete scenario -/

/-- Cluster with active nodes `a` and `b` after `Distribute(["x", "k43"])`:
the ring sends `"x"` to `a` and `"k43"` to `b`. -/
def c5Distributed : Cluster :=
  (Distribute
    { storage := cfgD, store := RStore.empty, hashRing := ringAB,
      heartbeatMaxFailures := 5, started := true, events := [] }
    ["x", "k43"]).1

/-- The same cluster after `a`'s dead transition set its ring status to
`inactive` (the ring mutation the handler performs before spawning the
redistribution goroutine). -/
def c5Dead : Cluster :=
  { c5Distributed with
      hashRing := ringOf (c5Distributed.hashRing.UpdateNodeStatus "a" .inactive) }

/-- C5 (counterexample): after the death-triggered redistribution settles,
key `"x"` is forward-mapped to `b` but still sits in the dead node `a`'s
`nodekeys` set, so the claimed biconditional `keymap:{k} = N ↔ k ∈
nodekeys:{N}` is false at `k = "x"`, `N = "a"` even at quiescence. -/
theorem C5_counterexample :
    (deadNodeRebalance c5Dead "a").1.store.getStr (cfgD.makeKey ["keymap", "x"])
      = some "b" ∧
    "x" ∈ (deadNodeRebalance c5Dead "a").1.store.smembers (cfgD.makeKey ["nodekeys", "a"]) ∧
    ("b" : String) ≠ "a" ∧
    (deadNodeRebalance c5Dead "a").2 = none := by
  decide

/-- Witness for the amended C5, instantiated at the concrete dead node `a`
and its redistributed key `"x"`. -/
theorem C5_amended_witness :
    keyMapped c5Dead.storage (deadNodeRebalance c5Dead "a").1.store "x" ∧
    "x" ∈ (deadNodeRebalance c5Dead "a").1.store.smembers
            (c5Dead.storage.makeKey ["nodekeys", "a"]) :=
  C5_rebalance_maps_keys_but_keeps_dead_set c5Dead "a" (by decide) "x" (by decide)

end Pantheon

namespace Hashring

open Pantheon (alGet alSet alDel)

/-! ## C4: well-formed rings route to an active node -/

/-- Well-formedness of a ring state: the two Go maps have unique keys (true
of every real map), every hash in the sorted list resolves through
`virtualNodes` to a registered node, and every registered node owns at least
one hash in the sorted list.  These are exactly the spec's ring-shape
invariants restated for the model; states built by `AddNode` alone satisfy
them, while `RemoveNode`'s corrupted rebuild (see C1) can break them. -/
def RingWF (h : HashRing) : Prop :=
  (h.nodes.map Prod.fst).Nodup ∧
  (∀ hash ∈ h.sortedHashes,
    (alGet h.nodes ((alGet h.virtualNodes hash).getD "")).isSome = true) ∧
  (∀ p ∈ h.nodes, ∃ hash ∈ h.sortedHashes, (alGet h.virtualNodes hash).getD "" = p.1)

/-- A loop counter at which `getNextAvailableNode`'s scan is sure to stop
with a success: the duplicate-physical-node skip does not fire and the
position resolves to an available node. -/
def scanHit (h : HashRing) (startIdx i : Nat) : Prop :=
  (¬ (i ≠ 0 ∧ h.vnodeIDAt ((startIdx + i) % h.sortedHashes.length)
        = h.vnodeIDAt ((startIdx + i - 1) % h.sortedHashes.length))) ∧
  ∃ node, alGet h.nodes (h.vnodeIDAt ((startIdx + i) % h.sortedHashes.length)) = some node
          ∧ node.IsAvailable = true

/-- If some remaining loop counter is a `scanHit`, the scan returns an
available node. -/
theorem getNextAvailableLoop_ok (h : HashRing) (startIdx : Nat) :
    ∀ l : List Nat, (∃ i ∈ l, scanHit h startIdx i) →
      ∃ nd, getNextAvailableLoop h startIdx l = .ok nd ∧ nd.IsAvailable = true := by
  intro l
  induction l with
  | nil => intro hex; obtain ⟨i, hi, _⟩ := hex; simp at hi
  | cons j rest ih =>
    intro hex
    obtain ⟨i, hi, hhit⟩ := hex
    unfold getNextAvailableLoop
    dsimp only
    by_cases hskip : j ≠ 0 ∧ h.vnodeIDAt ((startIdx + j) % h.sortedHashes.length)
        = h.vnodeIDAt ((startIdx + j - 1) % h.sortedHashes.length)
    · rw [if_pos hskip]
      apply ih
      rcases List.mem_cons.mp hi with he | he
      · exact absurd hskip (he ▸ hhit).1
      · exact ⟨i, he, hhit⟩
    · rw [if_neg hskip]
      rcases hn : alGet h.nodes (h.vnodeIDAt ((startIdx + j) % h.sortedHashes.length))
        with _ | node
      · apply ih
        rcases List.mem_cons.mp hi with he | he
        · obtain ⟨node, hnode, _⟩ := (he ▸ hhit).2
          rw [hn] at hnode
          cases hnode
        · exact ⟨i, he, hhit⟩
      · by_cases hav : node.IsAvailable = true
        · exact ⟨node, by dsimp only; rw [if_pos hav], hav⟩
        · dsimp only
          rw [if_neg hav]
          apply ih
          rcases List.mem_cons.mp hi with he | he
          · obtain ⟨node2, hnode2, hav2⟩ := (he ▸ hhit).2
            rw [hn] at hnode2
            cases hnode2
            exact absurd hav2 hav
          · exact ⟨i, he, hhit⟩

end Hashring

namespace Hashring

open Pantheon (alGet alSet alDel alGet_of_mem_nodupKeys)

/-- An entry of a list is reached from any starting offset: some loop counter
`i < n` lands on position `pos`. -/
theorem exists_counter_to_pos (startIdx pos n : Nat) (hpos : pos < n) :
    ∃ i < n, (startIdx + i) % n = pos := by
  have hn : 0 < n := Nat.lt_of_le_of_lt (Nat.zero_le pos) hpos
  have hs : startIdx % n < n := Nat.mod_lt _ hn
  refine ⟨if startIdx % n ≤ pos then pos - startIdx % n else pos + n - startIdx % n,
          by split <;> omega, ?_⟩
  rw [Nat.add_mod]
  split
  · rw [Nat.mod_eq_of_lt (by omega : pos - startIdx % n < n)]
    rw [(by omega : startIdx % n + (pos - startIdx % n) = pos), Nat.mod_eq_of_lt hpos]
  · rw [Nat.mod_eq_of_lt (by omega : pos + n - startIdx % n < n)]
    rw [(by omega : startIdx % n + (pos + n - startIdx % n) = pos + n),
        Nat.add_mod_right, Nat.mod_eq_of_lt hpos]

/-- In a well-formed ring holding an available node, every starting index has
a `scanHit` among the loop counters `0 .. n-1`. -/
theorem exists_scanHit (h : HashRing) (hwf : RingWF h) (p : String × Node)
    (hp : p ∈ h.nodes) (hav : p.2.IsAvailable = true) (startIdx : Nat) :
    ∃ i ∈ List.range h.sortedHashes.length, scanHit h startIdx i := by
  obtain ⟨hash, hhash, hid⟩ := hwf.2.2 p hp
  obtain ⟨pos, hget⟩ := List.mem_iff_get.mp hhash
  have hposlt : pos.val < h.sortedHashes.length := pos.isLt
  have hvn : h.vnodeIDAt pos.val = p.1 := by
    unfold HashRing.vnodeIDAt
    rw [List.getD_eq_get _ _ hposlt]
    simp only [← hget] at hid ⊢
    exact hid
  obtain ⟨i0, hi0lt, hi0⟩ := exists_counter_to_pos startIdx pos.val _ hposlt
  have hP : h.vnodeIDAt ((startIdx + i0) % h.sortedHashes.length) = p.1 := by
    rw [hi0, hvn]
  have hex : ∃ i, h.vnodeIDAt ((startIdx + i) % h.sortedHashes.length) = p.1 := ⟨i0, hP⟩
  set j := Nat.find hex with hj
  have hjP : h.vnodeIDAt ((startIdx + j) % h.sortedHashes.length) = p.1 := Nat.find_spec hex
  have hjle : j ≤ i0 := Nat.find_min' hex hP
  refine ⟨j, List.mem_range.mpr (Nat.lt_of_le_of_lt hjle hi0lt), ?_, ?_⟩
  · rintro ⟨hj0, heq⟩
    have hprev : h.vnodeIDAt ((startIdx + (j - 1)) % h.sortedHashes.length) = p.1 := by
      rw [(by omega : startIdx + (j - 1) = startIdx + j - 1), ← heq, hjP]
    exact Nat.find_min hex (by omega : j - 1 < j) hprev
  · exact ⟨p.2, by rw [hjP]; exact alGet_of_mem_nodupKeys h.nodes p hp hwf.1, hav⟩

end Hashring

namespace Hashring

open Pantheon (alGet alSet alDel)

/-- Core step of `GetNode` on a well-formed ring: whatever in-range index the
binary search chose, the dispatch starting there ends at an available node. -/
theorem getNode_step (h : HashRing) (hwf : RingWF h) (p : String × Node)
    (hp : p ∈ h.nodes) (hpav : p.2.IsAvailable = true)
    (idx : Nat) (hidx : idx < h.sortedHashes.length) :
    ∃ nd, (match alGet h.nodes (h.vnodeIDAt idx) with
           | none => Except.error (RingErr.internalMissing (h.vnodeIDAt idx))
           | some node => if node.IsAvailable then Except.ok node
                          else h.getNextAvailableNode idx) = .ok nd
          ∧ nd.IsAvailable = true := by
  have hmem : h.sortedHashes.getD idx 0 ∈ h.sortedHashes := by
    rw [List.getD_eq_get _ _ hidx]
    exact List.get_mem _ _ _
  have hsome := hwf.2.1 _ hmem
  rcases hn : alGet h.nodes (h.vnodeIDAt idx) with _ | node
  · unfold HashRing.vnodeIDAt at hn
    rw [hn] at hsome
    simp at hsome
  · dsimp only
    by_cases hav : node.IsAvailable = true
    · exact ⟨node, by rw [if_pos hav], hav⟩
    · rw [if_neg hav]
      unfold HashRing.getNextAvailableNode
      exact getNextAvailableLoop_ok h idx _ (exists_scanHit h hwf p hp hpav idx)

/-- C4 (amended): on every well-formed ring state holding at least one
node with status `active`, `GetNode` returns an active node for every key —
in particular it never fails with `NoActiveNodes` (nor with any other error)
while an active node exists, so `NoActiveNodes` can only occur when every
node is unavailable. -/
theorem C4_wellformed_getNode_returns_active (h : HashRing) (hwf : RingWF h)
    (hact : ∃ p ∈ h.nodes, p.2.IsAvailable = true) (key : String) :
    ∃ nd, h.GetNode key = .ok nd ∧ nd.IsAvailable = true := by
  obtain ⟨p, hp, hpav⟩ := hact
  have hne : h.nodes.isEmpty = false := by
    cases hnl : h.nodes with
    | nil => rw [hnl] at hp; cases hp
    | cons a l => rfl
  have hlen : 0 < h.sortedHashes.length := by
    obtain ⟨hash, hhash, _⟩ := hwf.2.2 p hp
    cases hsl : h.sortedHashes with
    | nil => rw [hsl] at hhash; cases hhash
    | cons a l => simp
  unfold HashRing.GetNode
  rw [hne]
  simp only [Bool.false_eq_true, if_false]
  exact getNode_step h hwf p hp hpav _ (by split <;> omega)

end Hashring

namespace Pantheon

open Hashring

/-! ## C4 concrete states -/

/-- C4 (counterexample): the claim quantifies over every non-empty ring
state, but the reachable state `AddNode(a); AddNode(b); RemoveNode("b")`
(corrupted by the C1 bug) still registers the active node `a` while
`GetNode "k12")` — whose hash lands on one of `b`'s stale virtual hashes —
returns the internal lookup error instead of an active node. -/
theorem C4_counterexample :
    ringAB.RemoveNode "b" = .ok ringCorrupt ∧
    alGet ringCorrupt.nodes "a" = some nodeA ∧
    nodeA.IsAvailable = true ∧
    ringCorrupt.nodes ≠ [] ∧
    ringCorrupt.GetNode "k12" = .error (.internalMissing "") := by
  decide

/-- Witness for the amended C4 at the two-node ring `ringAB` and key `"x"`. -/
theorem C4_amended_witness :
    RingWF ringAB ∧ (∃ p ∈ ringAB.nodes, p.2.IsAvailable = true) ∧
    (∃ nd, ringAB.GetNode "x" = .ok nd ∧ nd.IsAvailable = true) :=
  ⟨⟨by decide, by decide, by decide⟩,
   ⟨("a", nodeA), by decide, by decide⟩,
   C4_wellformed_getNode_returns_active ringAB ⟨by decide, by decide, by decide⟩
     ⟨("a", nodeA), by decide, by decide⟩ "x"⟩

end Pantheon
